import Mathlib

/-!
Verification of the core of `golem-gpu-info` (multi-backend GPU detection).

This development shallowly embeds the core logic of `src/lib.rs`
(`GpuDetectionBuilder::init`, `GpuDetection::detect` with its inline
run-length aggregation loop, `GpuDetection::search_by_uuid`) together with
the data model of `src/model.rs`.  Backends (the `Platform` / `Detection`
trait objects) are modelled as records of pure functions returning
`Except GpuDetectionError _`, mirroring Rust's `Result`.

Machine integers (`u32`, `u64`, `usize`) are modelled as `Nat`: the core
logic only ever compares them for equality and increments a `usize`
quantity counter, so overflow is irrelevant here.  The one `f32` field
(`DeviceMemory.total_gib`) is modelled as `Nat`: the core compares it only
with `==`, and every `f32` the repository constructs comes from
`bytes_to_gib` applied to a hardware byte count, which never yields NaN,
so Rust `f32` equality coincides with equality of the underlying value.
-/

/-- Model of `model::Cuda` (`src/model.rs`): installed CUDA API info. -/
structure Cuda where
  version : String
  driver_version : Option String
deriving DecidableEq

/-- Model of `model::GpuApiInfo` (`src/model.rs`). -/
structure GpuApiInfo where
  cuda : Option Cuda
deriving DecidableEq

/-- Rust `GpuApiInfo::default()`: the `cuda` field absent. -/
instance : Inhabited GpuApiInfo := ⟨⟨none⟩⟩

/-- Model of `model::DeviceCuda` (`src/model.rs`). -/
structure DeviceCuda where
  enabled : Bool
  cores : Nat
  caps : String
deriving DecidableEq

/-- Model of `model::DeviceClocks` (`src/model.rs`). -/
structure DeviceClocks where
  graphics_mhz : Nat
  memory_mhz : Nat
  sm_mhz : Nat
  video_mhz : Option Nat
deriving DecidableEq

/-- Model of `model::DeviceMemory` (`src/model.rs`).  `total_gib` is the
`f32` field, abstracted as explained in the header comment. -/
structure DeviceMemory where
  bandwidth_gib : Option Nat
  total_gib : Nat
deriving DecidableEq

/-- Model of `model::Device` (`src/model.rs`): one (group of) GPU device(s). -/
structure Device where
  model : String
  cuda : Option DeviceCuda
  clocks : DeviceClocks
  memory : DeviceMemory
  quantity : Nat
deriving DecidableEq

/-- Model of `model::Gpu` (`src/model.rs`): the top-level detection result. -/
structure Gpu where
  api : GpuApiInfo
  device : List Device
deriving DecidableEq

/-- Model of `GpuDetectionError` (`src/lib.rs` lines 32-57).  Payloads that
are foreign error types in Rust are modelled by their display strings. -/
inductive GpuDetectionError where
  | LibloadingError (msg : String)
  | GpuAccessError (msg : String)
  | GpuInfoAccessError (msg : String)
  | Unknown (msg : String)
  | NotFound
  | AmdError (msg : String)
deriving DecidableEq

/-- Display string of a `GpuDetectionError`, following the `thiserror`
format strings in `src/lib.rs` (for `AmdError` the `transparent` display). -/
def errMsg : GpuDetectionError → String
  | .LibloadingError s => "libloading error occurred: " ++ s
  | .GpuAccessError s => "Failed to access GPU error: " ++ s
  | .GpuInfoAccessError s => "Failed to access GPU info error: " ++ s
  | .Unknown s => "NVML error occurred: " ++ s
  | .NotFound => "Driver not found"
  | .AmdError s => s

/-- Model of `platform::Flags` (`src/platform.rs`). -/
structure Flags where
  unstable : Bool
  force : Bool
deriving DecidableEq

/-- Model of a `Box<dyn Detection>` handle (`src/platform.rs` trait
`Detection`): an activated backend.  `detect_api` takes and returns the
`GpuApiInfo` accumulator (the Rust method mutates it through `&mut`);
`devices` and `device_by_uuid` return the result of querying the backend. -/
structure Detection where
  detect_api : GpuApiInfo → Except GpuDetectionError GpuApiInfo
  devices : Except GpuDetectionError (List Device)
  device_by_uuid : String → Except GpuDetectionError (Option Device)

/-- Model of a `&'static dyn Platform` (`src/platform.rs` trait `Platform`):
a registered, not yet activated backend. -/
structure Platform where
  name : String
  init : Flags → Except GpuDetectionError Detection

/-- Model of `GpuDetectionBuilder` (`src/lib.rs` lines 62-67).  The
`BTreeSet<&'static str>` force set is modelled as a `List String` in its
iteration (sorted) order; the operations used on it are membership test,
removal and the emptiness test. -/
structure GpuDetectionBuilder where
  force : List String
  unstable : Bool
  platforms : List Platform

/-- Model of `GpuDetection` (`src/lib.rs` lines 88-90). -/
structure GpuDetection where
  detections : List Detection

/-- Rust `{:?}` rendering of the remaining force set (a `BTreeSet<&str>`),
used in the "missing forced platforms" error message of
`GpuDetectionBuilder::init`. -/
def formatForce (l : List String) : String :=
  "\x7b" ++ String.intercalate ", " (l.map (fun s => "\"" ++ s ++ "\"")) ++ "\x7d"

/-- Loop of `GpuDetectionBuilder::init` (`src/lib.rs` lines 110-125): the
`filter_map` over `platforms` collected into `Result<Vec<_>>` (which stops
at the first error), with the mutating `self.force.remove(platform.name())`
made explicit.  Returns the activated handles together with the remaining
force set. -/
def initLoop (unstable : Bool) :
    List String → List Platform →
    Except GpuDetectionError (List Detection × List String)
  | force, [] => .ok ([], force)
  | force, p :: rest =>
    let isForced := force.contains p.name
    let force2 := force.erase p.name
    match p.init { unstable := unstable, force := isForced } with
    | .ok v =>
      match initLoop unstable force2 rest with
      | .ok (ds, f) => .ok (v :: ds, f)
      | .error e => .error e
    | .error e => if isForced then .error e else initLoop unstable force2 rest

/-- Model of `GpuDetectionBuilder::init` (`src/lib.rs` lines 109-134). -/
def GpuDetectionBuilder.init (b : GpuDetectionBuilder) :
    Except GpuDetectionError GpuDetection :=
  match initLoop b.unstable b.force b.platforms with
  | .error e => .error e
  | .ok (ds, remaining) =>
    if remaining.isEmpty then .ok ⟨ds⟩
    else .error (.GpuAccessError
      ("missing forced platforms: " ++ formatForce remaining))

/-- Identity comparison of `GpuDetection::detect` (`src/lib.rs` lines
150-153): `next_dev` is compared field by field against the current
candidate `dev`, `quantity` excluded. -/
def identEq (next dev : Device) : Bool :=
  next.model == dev.model && next.cuda == dev.cuda
    && next.clocks == dev.clocks && next.memory == dev.memory

/-- Inner aggregation loop of `GpuDetection::detect` (`src/lib.rs` lines
147-160): `dev` is the current candidate, the list is the rest of the
iterator; equal-identity records bump the candidate's quantity by one,
a different record flushes the candidate and becomes the new candidate. -/
def aggLoop (dev : Device) : List Device → List Device
  | [] => [dev]
  | next :: rest =>
    if identEq next dev then aggLoop { dev with quantity := dev.quantity + 1 } rest
    else dev :: aggLoop next rest

/-- Aggregation of one backend's raw device list as performed inside
`GpuDetection::detect` (`src/lib.rs` lines 146-161). -/
def aggregate : List Device → List Device
  | [] => []
  | d :: rest => aggLoop d rest

/-- Loop of `GpuDetection::detect` (`src/lib.rs` lines 143-162) over the
activated backends, carrying the `api` accumulator and the `device`
output vector. -/
def detectLoop (api : GpuApiInfo) (device : List Device) :
    List Detection → Except GpuDetectionError Gpu
  | [] => .ok { api := api, device := device }
  | d :: rest =>
    match d.detect_api api with
    | .error e => .error e
    | .ok api2 =>
      match d.devices with
      | .error e => .error e
      | .ok devs => detectLoop api2 (device ++ aggregate devs) rest

/-- Model of `GpuDetection::detect` (`src/lib.rs` lines 139-165). -/
def GpuDetection.detect (g : GpuDetection) : Except GpuDetectionError Gpu :=
  detectLoop default [] g.detections

/-- Loop of `GpuDetection::search_by_uuid` (`src/lib.rs` lines 169-179),
carrying the `last_err` accumulator. -/
def searchLoop (uuid : String) (lastErr : Option GpuDetectionError) :
    List Detection → Except GpuDetectionError Device
  | [] => .error (lastErr.getD .NotFound)
  | d :: rest =>
    match d.device_by_uuid uuid with
    | .ok (some device) => .ok device
    | .error e => searchLoop uuid (some e) rest
    | .ok none => searchLoop uuid lastErr rest

/-- Model of `GpuDetection::search_by_uuid` (`src/lib.rs` lines 168-180). -/
def GpuDetection.search_by_uuid (g : GpuDetection) (uuid : String) :
    Except GpuDetectionError Device :=
  searchLoop uuid none g.detections

/-- Identity tuple of a device as described by the data model: every field
except `quantity`. -/
def identTuple (d : Device) : String × Option DeviceCuda × DeviceClocks × DeviceMemory :=
  (d.model, d.cuda, d.clocks, d.memory)

/-- Sum of the `quantity` fields over a device list. -/
def sumQuantity (l : List Device) : Nat :=
  (l.map (fun d => d.quantity)).sum

/-- Decomposition of a raw device list into its maximal runs of records
identity-equal to the run's first record: each run is returned as its head
together with the remaining members. -/
def chunks : List Device → List (Device × List Device)
  | [] => []
  | d :: rest =>
    (d, rest.takeWhile (fun x => identEq x d)) ::
      chunks (rest.dropWhile (fun x => identEq x d))
termination_by l => l.length
decreasing_by
  simp only [List.length_cons]
  exact Nat.lt_succ_of_le (List.dropWhile_sublist _).length_le

/-- Merged record a run of devices turns into: the head with its quantity
bumped once per further member, exactly as the candidate `dev` is treated
by the loop of `GpuDetection::detect`. -/
def mergeRun (r : Device × List Device) : Device :=
  { r.1 with quantity := r.1.quantity + r.2.length }

theorem identEq_quantity (x dev : Device) (q : Nat) :
    identEq x { dev with quantity := q } = identEq x dev := rfl

theorem identEq_iff (x d : Device) :
    identEq x d = true ↔ identTuple x = identTuple d := by
  simp [identEq, identTuple, and_assoc]

theorem identEq_false_of_ne {x d : Device}
    (h : identTuple x ≠ identTuple d) : identEq x d = false := by
  cases hb : identEq x d with
  | false => rfl
  | true => exact absurd ((identEq_iff x d).mp hb) h

theorem aggLoop_eq (l : List Device) : ∀ dev : Device,
    aggLoop dev l =
      mergeRun (dev, l.takeWhile (fun x => identEq x dev)) ::
        aggregate (l.dropWhile (fun x => identEq x dev)) := by
  induction l with
  | nil => intro dev; simp [aggLoop, aggregate, mergeRun]
  | cons next rest ih =>
    intro dev
    by_cases h : identEq next dev
    · have hpred : (fun x => identEq x { dev with quantity := dev.quantity + 1 })
          = (fun x => identEq x dev) := by
        funext x; exact identEq_quantity x dev _
      simp only [aggLoop, h, if_true, ih, hpred, List.takeWhile_cons, h,
        List.dropWhile_cons, mergeRun, List.length_cons]
      congr 1
      congr 1
      omega
    · have hb : identEq next dev = false := by
        cases hb : identEq next dev
        · rfl
        · exact absurd hb h
      simp only [aggLoop, hb, Bool.false_eq_true, if_false, List.takeWhile_cons,
        List.dropWhile_cons, mergeRun, List.length_nil, Nat.add_zero]
      rfl

theorem aggregate_eq_chunks (l : List Device) :
    aggregate l = (chunks l).map mergeRun := by
  induction l using chunks.induct with
  | case1 => rw [chunks]; rfl
  | case2 d rest ih =>
    rw [chunks, aggregate, aggLoop_eq, List.map_cons, ih]

theorem chunks_flatten (l : List Device) :
    ((chunks l).map (fun r => r.1 :: r.2)).flatten = l := by
  induction l using chunks.induct with
  | case1 => rw [chunks]; rfl
  | case2 d rest ih =>
    rw [chunks, List.map_cons, List.flatten_cons, ih]
    simp [List.takeWhile_append_dropWhile]

theorem chunks_mem (l : List Device) :
    ∀ r ∈ chunks l, ∀ x ∈ r.1 :: r.2, x ∈ l := by
  induction l using chunks.induct with
  | case1 => simp [chunks]
  | case2 d rest ih =>
    intro r hr x hx
    rw [chunks] at hr
    rcases List.mem_cons.mp hr with h | h
    · subst h
      rcases List.mem_cons.mp hx with h | h
      · exact h ▸ List.mem_cons_self _ _
      · exact List.mem_cons_of_mem _ ((List.takeWhile_sublist _).subset h)
    · exact List.mem_cons_of_mem _
        ((List.dropWhile_sublist _).subset (ih r h x hx))

theorem chunks_run_ident (l : List Device) :
    ∀ r ∈ chunks l, ∀ x ∈ r.2, identEq x r.1 = true := by
  induction l using chunks.induct with
  | case1 => simp [chunks]
  | case2 d rest ih =>
    intro r hr x hx
    rw [chunks] at hr
    rcases List.mem_cons.mp hr with h | h
    · subst h
      have hx' : x ∈ rest.takeWhile (fun y => identEq y d) := hx
      have h3 := List.mem_takeWhile_imp hx'
      simpa using h3
    · exact ih r h x hx

theorem chunks_maximal (l : List Device) :
    List.Chain' (fun a b : Device × List Device => identEq b.1 a.1 = false)
      (chunks l) := by
  induction l using chunks.induct with
  | case1 => simp [chunks]
  | case2 d rest ih =>
    rw [chunks]
    refine List.Chain'.cons' ih ?_
    intro r hr
    cases hdw : rest.dropWhile (fun x => identEq x d) with
    | nil => rw [hdw] at hr; simp [chunks] at hr
    | cons x xs =>
      have hx : identEq x d = false := by
        have h := List.head?_dropWhile_not (fun y => identEq y d) rest
        rw [hdw] at h
        simpa using h
      rw [hdw, chunks] at hr
      simp only [List.head?_cons, Option.mem_some_iff] at hr
      rw [← hr]
      exact hx

theorem sumQuantity_aggregate (l : List Device)
    (h : ∀ d ∈ l, d.quantity = 1) :
    sumQuantity (aggregate l) = l.length := by
  induction l using chunks.induct with
  | case1 => rfl
  | case2 d rest ih =>
    have hstep : aggregate (d :: rest) =
        mergeRun (d, rest.takeWhile (fun x => identEq x d)) ::
          aggregate (rest.dropWhile (fun x => identEq x d)) := by
      rw [aggregate, aggLoop_eq]
    have hrest : ∀ x ∈ rest.dropWhile (fun x => identEq x d), x.quantity = 1 :=
      fun x hx => h x (List.mem_cons_of_mem _ ((List.dropWhile_sublist _).subset hx))
    have hd : d.quantity = 1 := h d (List.mem_cons_self _ _)
    have hlen : (rest.takeWhile (fun x => identEq x d)).length
        + (rest.dropWhile (fun x => identEq x d)).length = rest.length := by
      have h2 := congrArg List.length
        (List.takeWhile_append_dropWhile (p := fun x => identEq x d) (l := rest))
      rw [List.length_append] at h2
      exact h2
    have ihv := ih hrest
    rw [hstep]
    simp only [sumQuantity, List.map_cons, List.sum_cons, mergeRun] at ihv ⊢
    rw [List.length_cons]
    omega

/-- Concrete sample device used by witnesses. -/
def devX : Device :=
  { model := "X", cuda := none,
    clocks := { graphics_mhz := 1, memory_mhz := 1, sm_mhz := 1, video_mhz := none },
    memory := { bandwidth_gib := none, total_gib := 1 }, quantity := 1 }

/-- Concrete sample device with an identity distinct from `devX`. -/
def devY : Device :=
  { model := "Y", cuda := none,
    clocks := { graphics_mhz := 2, memory_mhz := 2, sm_mhz := 2, video_mhz := none },
    memory := { bandwidth_gib := none, total_gib := 2 }, quantity := 1 }

/-- C1: for a raw device list from one backend in which every record has
quantity 1, the aggregation inside `GpuDetection::detect` maps each maximal
run of identity-equal records to exactly one record, in the run's position,
whose quantity is the run's length, and the total quantity of the output
equals the input length.  `chunks l` is the maximal-run decomposition:
its flattening restores `l`, every member of a run is identity-equal to the
run's head, and adjacent runs have identity-distinct heads (maximality). -/
theorem detect_aggregates_runs (l : List Device) (h : ∀ d ∈ l, d.quantity = 1) :
    aggregate l = (chunks l).map (fun r => { r.1 with quantity := r.2.length + 1 })
    ∧ sumQuantity (aggregate l) = l.length
    ∧ ((chunks l).map (fun r => r.1 :: r.2)).flatten = l
    ∧ (∀ r ∈ chunks l, ∀ x ∈ r.2, identEq x r.1 = true)
    ∧ List.Chain' (fun a b : Device × List Device => identEq b.1 a.1 = false)
        (chunks l) := by
  refine ⟨?_, sumQuantity_aggregate l h, chunks_flatten l,
    chunks_run_ident l, chunks_maximal l⟩
  rw [aggregate_eq_chunks]
  apply List.map_congr_left
  intro r hr
  have h1 : r.1.quantity = 1 := h r.1 (chunks_mem l r hr r.1 (List.mem_cons_self _ _))
  simp [mergeRun, h1, Nat.add_comm]

/-- Witness for C1 on the spec's round-trip example shape `[X, X, Y]`. -/
theorem detect_aggregates_runs_witness :
    sumQuantity (aggregate [devX, devX, devY]) = [devX, devX, devY].length :=
  (detect_aggregates_runs [devX, devX, devY] (by decide)).2.1

/-- C6: two records of distinct identity placed around a record of the
other identity are not merged: `[A, B, A]` aggregates to three records. -/
theorem nonconsecutive_not_merged (a b : Device)
    (hne : identTuple a ≠ identTuple b)
    (_ha : a.quantity = 1) (_hb : b.quantity = 1) :
    aggregate [a, b, a] = [a, b, a] := by
  have h1 : identEq b a = false := identEq_false_of_ne (fun hh => hne hh.symm)
  have h2 : identEq a b = false := identEq_false_of_ne hne
  simp [aggregate, aggLoop, h1, h2]

/-- Witness for C6 at the concrete devices `devX` and `devY`. -/
theorem nonconsecutive_not_merged_witness :
    aggregate [devX, devY, devX] = [devX, devY, devX] :=
  nonconsecutive_not_merged devX devY (by decide) rfl rfl

/-- C8: an empty raw device list aggregates to the empty sequence, and a
backend whose `devices` call returns the empty list contributes no records
to the output of `GpuDetection::detect`. -/
theorem empty_devices_contribute_nothing :
    aggregate [] = []
    ∧ ∀ (api : GpuApiInfo) (acc : List Device) (d : Detection)
        (rest : List Detection) (a2 : GpuApiInfo),
        d.devices = .ok [] → d.detect_api api = .ok a2 →
        detectLoop api acc (d :: rest) = detectLoop a2 acc rest := by
  refine ⟨rfl, ?_⟩
  intro api acc d rest a2 hdev hapi
  simp [detectLoop, hapi, hdev, aggregate]

/-- Backend handle that reports no devices; used by witnesses. -/
def emptyDetection : Detection :=
  { detect_api := fun a => .ok a, devices := .ok [],
    device_by_uuid := fun _ => .ok none }

/-- Witness for C8 with a concrete empty backend. -/
theorem empty_devices_contribute_nothing_witness :
    detectLoop default [] [emptyDetection] = detectLoop default [] [] :=
  empty_devices_contribute_nothing.2 default [] emptyDetection [] default rfl rfl

/-- C9: with no activated backends, `GpuDetection::detect` returns `Ok`
with the default `GpuApiInfo` (the `cuda` field absent) and an empty
device sequence; it never errors in this case. -/
theorem detect_no_backends :
    GpuDetection.detect ⟨[]⟩ = .ok { api := { cuda := none }, device := [] } := rfl

/-- Backend whose `detect_api` and `devices` calls both succeed (for any
accumulator value). -/
def detectorOk (d : Detection) : Prop :=
  (∀ a, ∃ a2, d.detect_api a = .ok a2) ∧ ∃ ds, d.devices = .ok ds

/-- Backend whose detection pass fails with error `e`: either its
`detect_api` call errors, or `detect_api` succeeds and `devices` errors. -/
def detectorFails (d : Detection) (e : GpuDetectionError) : Prop :=
  (∀ a, d.detect_api a = .error e)
  ∨ ((∀ a, ∃ a2, d.detect_api a = .ok a2) ∧ d.devices = .error e)

theorem detectLoop_error (bad : Detection) (e : GpuDetectionError)
    (post : List Detection) (hbad : detectorFails bad e) :
    ∀ (pre : List Detection), (∀ d ∈ pre, detectorOk d) →
    ∀ (api : GpuApiInfo) (device : List Device),
      detectLoop api device (pre ++ bad :: post) = .error e := by
  intro pre
  induction pre with
  | nil =>
    intro _ api device
    rcases hbad with h | ⟨hapi, hdev⟩
    · simp [detectLoop, h api]
    · obtain ⟨a2, ha2⟩ := hapi api
      simp [detectLoop, ha2, hdev]
  | cons d rest ih =>
    intro hpre api device
    obtain ⟨hapi, ds, hds⟩ := hpre d (List.mem_cons_self _ _)
    obtain ⟨a2, ha2⟩ := hapi api
    simp only [List.cons_append, detectLoop, ha2, hds]
    exact ih (fun x hx => hpre x (List.mem_cons_of_mem _ hx)) a2
      (device ++ aggregate ds)

/-- C2: if, after a prefix of backends whose `detect_api` and `devices`
calls succeed, a backend fails its `detect_api` or `devices` call with
error `e`, then `GpuDetection::detect` returns `e`: no `Gpu` value is
produced and the backends after the failing one are never consulted. -/
theorem detect_short_circuits (pre post : List Detection) (bad : Detection)
    (e : GpuDetectionError)
    (hpre : ∀ d ∈ pre, detectorOk d) (hbad : detectorFails bad e) :
    GpuDetection.detect ⟨pre ++ bad :: post⟩ = .error e :=
  detectLoop_error bad e post hbad pre hpre default []

/-- Backend handle reporting one device `devX`; used by witnesses. -/
def okDetection : Detection :=
  { detect_api := fun a => .ok a, devices := .ok [devX],
    device_by_uuid := fun _ => .ok none }

/-- Backend handle whose `devices` call fails; used by witnesses. -/
def failingDetection : Detection :=
  { detect_api := fun a => .ok a,
    devices := .error (.GpuAccessError "boom"),
    device_by_uuid := fun _ => .ok none }

/-- Witness for C2: backend 2 of 3 fails its `devices` call, detection
returns that error even though backend 3 would have succeeded. -/
theorem detect_short_circuits_witness :
    GpuDetection.detect ⟨[okDetection, failingDetection, emptyDetection]⟩
      = .error (.GpuAccessError "boom") :=
  detect_short_circuits [okDetection] [emptyDetection] failingDetection
    (.GpuAccessError "boom")
    (by
      intro d hd
      have hd' : d = okDetection := by simpa using hd
      subst hd'
      exact ⟨fun a => ⟨a, rfl⟩, ⟨[devX], rfl⟩⟩)
    (Or.inr ⟨fun a => ⟨a, rfl⟩, rfl⟩)

/-- Backend lookup that does not produce a match for `u`: it reports no
device, or it errors. -/
def lookupNoMatch (d : Detection) (u : String) : Prop :=
  d.device_by_uuid u = .ok none ∨ ∃ e, d.device_by_uuid u = .error e

/-- Last error recorded by the `search_by_uuid` loop over `ds`, starting
from `acc`, mirroring its `last_err` variable. -/
def lastErrAcc (u : String) (acc : Option GpuDetectionError)
    (ds : List Detection) : Option GpuDetectionError :=
  ds.foldl
    (fun a d => match d.device_by_uuid u with | .error e => some e | _ => a) acc

theorem searchLoop_no_match (u : String) :
    ∀ (ds : List Detection), (∀ d ∈ ds, lookupNoMatch d u) →
    ∀ (acc : Option GpuDetectionError),
      searchLoop u acc ds = .error ((lastErrAcc u acc ds).getD .NotFound) := by
  intro ds
  induction ds with
  | nil => intro _ acc; rfl
  | cons d rest ih =>
    intro h acc
    rcases h d (List.mem_cons_self _ _) with hnone | ⟨e, herr⟩
    · simp only [searchLoop, hnone, lastErrAcc, List.foldl_cons]
      exact ih (fun x hx => h x (List.mem_cons_of_mem _ hx)) acc
    · simp only [searchLoop, herr, lastErrAcc, List.foldl_cons]
      exact ih (fun x hx => h x (List.mem_cons_of_mem _ hx)) (some e)

theorem searchLoop_match (u : String) (m : Detection) (post : List Detection)
    (dev : Device) (hm : m.device_by_uuid u = .ok (some dev)) :
    ∀ (pre : List Detection), (∀ d ∈ pre, lookupNoMatch d u) →
    ∀ (acc : Option GpuDetectionError),
      searchLoop u acc (pre ++ m :: post) = .ok dev := by
  intro pre
  induction pre with
  | nil => intro _ acc; simp [searchLoop, hm]
  | cons d rest ih =>
    intro h acc
    rcases h d (List.mem_cons_self _ _) with hnone | ⟨e, herr⟩
    · simp only [List.cons_append, searchLoop, hnone]
      exact ih (fun x hx => h x (List.mem_cons_of_mem _ hx)) acc
    · simp only [List.cons_append, searchLoop, herr]
      exact ih (fun x hx => h x (List.mem_cons_of_mem _ hx)) (some e)

theorem lastErrAcc_none (u : String) :
    ∀ (ds : List Detection), (∀ d ∈ ds, d.device_by_uuid u = .ok none) →
    ∀ (acc : Option GpuDetectionError), lastErrAcc u acc ds = acc := by
  intro ds
  induction ds with
  | nil => intro _ acc; rfl
  | cons d rest ih =>
    intro h acc
    simp only [lastErrAcc, List.foldl_cons, h d (List.mem_cons_self _ _)]
    exact ih (fun x hx => h x (List.mem_cons_of_mem _ hx)) acc

/-- C5: `GpuDetection::search_by_uuid` returns the first positive match in
backend order even when earlier backends errored; with no match anywhere it
returns the last recorded error if some backend errored, and the not-found
error if none did. -/
theorem search_by_uuid_spec :
    (∀ (u : String) (pre : List Detection) (m : Detection)
        (post : List Detection) (dev : Device),
        (∀ d ∈ pre, lookupNoMatch d u) →
        m.device_by_uuid u = .ok (some dev) →
        GpuDetection.search_by_uuid ⟨pre ++ m :: post⟩ u = .ok dev)
    ∧ (∀ (u : String) (ds : List Detection) (e : GpuDetectionError),
        (∀ d ∈ ds, lookupNoMatch d u) → lastErrAcc u none ds = some e →
        GpuDetection.search_by_uuid ⟨ds⟩ u = .error e)
    ∧ (∀ (u : String) (ds : List Detection),
        (∀ d ∈ ds, d.device_by_uuid u = .ok none) →
        GpuDetection.search_by_uuid ⟨ds⟩ u = .error .NotFound) := by
  refine ⟨?_, ?_, ?_⟩
  · intro u pre m post dev hpre hm
    exact searchLoop_match u m post dev hm pre hpre none
  · intro u ds e h hlast
    have h2 := searchLoop_no_match u ds h none
    rw [hlast] at h2
    exact h2
  · intro u ds h
    have h2 := searchLoop_no_match u ds
      (fun d hd => Or.inl (h d hd)) none
    rw [lastErrAcc_none u ds h none] at h2
    exact h2

/-- Backend whose by-identifier lookup errors; used by witnesses. -/
def errLookupDetection : Detection :=
  { detect_api := fun a => .ok a, devices := .ok [],
    device_by_uuid := fun _ => .error (.GpuAccessError "lookup") }

/-- Backend whose by-identifier lookup finds `devX`; used by witnesses. -/
def matchDetection : Detection :=
  { detect_api := fun a => .ok a, devices := .ok [],
    device_by_uuid := fun _ => .ok (some devX) }

/-- Witness for C5: backend 1 errors, backend 2 matches, and the match is
returned with the error swallowed. -/
theorem search_by_uuid_spec_witness :
    GpuDetection.search_by_uuid ⟨[errLookupDetection, matchDetection]⟩ "u"
      = .ok devX :=
  search_by_uuid_spec.1 "u" [errLookupDetection] matchDetection [] devX
    (by
      intro d hd
      have hd' : d = errLookupDetection := by simpa using hd
      subst hd'
      exact Or.inr ⟨.GpuAccessError "lookup", rfl⟩)
    rfl

theorem detectLoop_ok (ds : List Detection) (ls : List (List Device))
    (hapi : ∀ d ∈ ds, ∀ a, ∃ a2, d.detect_api a = .ok a2)
    (hdev : List.Forall₂ (fun d l => d.devices = Except.ok l) ds ls) :
    ∀ (api : GpuApiInfo) (device : List Device),
    ∃ api2, detectLoop api device ds
      = .ok { api := api2, device := device ++ (ls.map aggregate).flatten } := by
  induction hdev with
  | nil =>
    intro api device
    exact ⟨api, by simp [detectLoop]⟩
  | @cons d l ds2 ls2 h1 h2 ih =>
    intro api device
    obtain ⟨a2, ha2⟩ := hapi d (List.mem_cons_self _ _) api
    obtain ⟨api2, hrest⟩ :=
      ih (fun x hx => hapi x (List.mem_cons_of_mem _ hx)) a2
        (device ++ aggregate l)
    refine ⟨api2, ?_⟩
    simp only [detectLoop, ha2, h1, hrest, List.map_cons, List.flatten_cons,
      List.append_assoc]

/-- C7: when every backend's calls succeed, the device sequence returned by
`GpuDetection::detect` is the concatenation, in backend order, of each
backend's aggregated list, which is itself the first-seen-order sequence of
merged run records; nothing is sorted or reordered. -/
theorem detect_order (ds : List Detection) (ls : List (List Device))
    (hapi : ∀ d ∈ ds, ∀ a, ∃ a2, d.detect_api a = .ok a2)
    (hdev : List.Forall₂ (fun d l => d.devices = Except.ok l) ds ls) :
    ∃ api, GpuDetection.detect ⟨ds⟩
      = .ok { api := api,
              device := (ls.map (fun l => (chunks l).map mergeRun)).flatten } := by
  obtain ⟨api2, h2⟩ := detectLoop_ok ds ls hapi hdev default []
  refine ⟨api2, ?_⟩
  have hmap : ls.map aggregate = ls.map (fun l => (chunks l).map mergeRun) :=
    List.map_congr_left (fun l _ => aggregate_eq_chunks l)
  rw [GpuDetection.detect] at *
  rw [h2, hmap]
  simp

/-- Backend handle reporting the raw list `[devX, devX]`; used by witnesses. -/
def detTwoX : Detection :=
  { detect_api := fun a => .ok a, devices := .ok [devX, devX],
    device_by_uuid := fun _ => .ok none }

/-- Backend handle reporting the raw list `[devY]`; used by witnesses. -/
def detOneY : Detection :=
  { detect_api := fun a => .ok a, devices := .ok [devY],
    device_by_uuid := fun _ => .ok none }

/-- Witness for C7 with two concrete backends. -/
theorem detect_order_witness :
    ∃ api, GpuDetection.detect ⟨[detTwoX, detOneY]⟩
      = .ok { api := api,
              device := (([[devX, devX], [devY]] : List (List Device)).map
                (fun l => (chunks l).map mergeRun)).flatten } :=
  detect_order [detTwoX, detOneY] [[devX, devX], [devY]]
    (by
      intro d hd a
      have hd' : d = detTwoX ∨ d = detOneY := by simpa using hd
      rcases hd' with h | h <;> subst h <;> exact ⟨a, rfl⟩)
    (List.Forall₂.cons rfl (List.Forall₂.cons rfl List.Forall₂.nil))

theorem initLoop_all_ok (unstable : Bool) :
    ∀ (ps : List Platform) (force : List String),
    (∀ p ∈ ps, ∀ fl, ∃ d, p.init fl = .ok d) →
    ∃ ds, initLoop unstable force ps
      = .ok (ds, ps.foldl (fun f p => f.erase p.name) force) := by
  intro ps
  induction ps with
  | nil => intro force _; exact ⟨[], rfl⟩
  | cons p rest ih =>
    intro force h
    obtain ⟨d, hd⟩ := h p (List.mem_cons_self _ _)
      { unstable := unstable, force := force.contains p.name }
    obtain ⟨ds, hds⟩ :=
      ih (force.erase p.name) (fun x hx => h x (List.mem_cons_of_mem _ hx))
    exact ⟨d :: ds, by simp only [initLoop, hd, hds, List.foldl_cons]⟩

theorem initLoop_forced_fail (unstable : Bool) (xp : Platform)
    (post : List Platform) (e : GpuDetectionError)
    (hfail : xp.init { unstable := unstable, force := true } = .error e) :
    ∀ (pre : List Platform) (force : List String),
    (∀ p ∈ pre, ∀ fl, ∃ d, p.init fl = .ok d) →
    (∀ p ∈ pre, p.name ≠ xp.name) →
    xp.name ∈ force →
    initLoop unstable force (pre ++ xp :: post) = .error e := by
  intro pre
  induction pre with
  | nil =>
    intro force _ _ hmem
    have hc : force.contains xp.name = true := List.elem_eq_true_of_mem hmem
    simp only [List.nil_append, initLoop, hc, hfail, if_true]
  | cons p rest ih =>
    intro force h hne hmem
    obtain ⟨d, hd⟩ := h p (List.mem_cons_self _ _)
      { unstable := unstable, force := force.contains p.name }
    have hmem2 : xp.name ∈ force.erase p.name :=
      (List.mem_erase_of_ne (hne p (List.mem_cons_self _ _)).symm).mpr hmem
    have hrest := ih (force.erase p.name)
      (fun x hx => h x (List.mem_cons_of_mem _ hx))
      (fun x hx => hne x (List.mem_cons_of_mem _ hx)) hmem2
    simp only [List.cons_append, initLoop, hd, List.append_eq, hrest]

theorem initLoop_skip (unstable : Bool) (xp : Platform)
    (post : List Platform) (e : GpuDetectionError)
    (hfail : xp.init { unstable := unstable, force := false } = .error e) :
    ∀ (pre : List Platform) (force : List String),
    xp.name ∉ force →
    initLoop unstable force (pre ++ xp :: post)
      = initLoop unstable force (pre ++ post) := by
  intro pre
  induction pre with
  | nil =>
    intro force hnm
    have hc : force.contains xp.name = false := by
      cases hcc : force.contains xp.name with
      | false => rfl
      | true => exact absurd (List.mem_of_elem_eq_true hcc) hnm
    simp only [List.nil_append, initLoop, hc, hfail, Bool.false_eq_true, if_false]
    rw [List.erase_of_not_mem hnm]
  | cons p rest ih =>
    intro force hnm
    have hnm2 : xp.name ∉ force.erase p.name :=
      fun hmem => hnm (List.mem_of_mem_erase hmem)
    have hrw := ih (force.erase p.name) hnm2
    simp only [List.cons_append, initLoop, List.append_eq, hrw]

theorem foldl_erase_of_disjoint :
    ∀ (ps : List Platform) (force : List String),
    (∀ n ∈ force, ∀ p ∈ ps, p.name ≠ n) →
    ps.foldl (fun f p => f.erase p.name) force = force := by
  intro ps
  induction ps with
  | nil => intro force _; rfl
  | cons p rest ih =>
    intro force h
    have he : force.erase p.name = force :=
      List.erase_of_not_mem
        (fun hmem => h p.name hmem p (List.mem_cons_self _ _) rfl)
    simp only [List.foldl_cons, he]
    exact ih force (fun n hn q hq => h n hn q (List.mem_cons_of_mem _ hq))

theorem foldl_erase_mem (n : String) :
    ∀ (ps : List Platform) (force : List String),
    n ∈ force → (∀ p ∈ ps, p.name ≠ n) →
    n ∈ ps.foldl (fun f p => f.erase p.name) force := by
  intro ps
  induction ps with
  | nil => intro force hmem _; exact hmem
  | cons p rest ih =>
    intro force hmem h
    have hmem2 : n ∈ force.erase p.name :=
      (List.mem_erase_of_ne (h p (List.mem_cons_self _ _)).symm).mpr hmem
    simp only [List.foldl_cons]
    exact ih (force.erase p.name) hmem2
      (fun x hx => h x (List.mem_cons_of_mem _ hx))

/-- Registered platform named `x` whose activation always fails; used for
counterexamples and witnesses. -/
def platX : Platform :=
  { name := "x", init := fun _ => .error (.Unknown "boom") }

/-- Registered platform named `y` whose activation always fails; used for
counterexamples. -/
def platY : Platform :=
  { name := "y", init := fun _ => .error (.Unknown "ybomb") }

/-- C3 counterexample: a force-marked registered backend named `x` fails to
activate; `init` fails, but with the backend's own activation error
propagated verbatim — its display text contains no occurrence of the
backend name `x`, so the error does not identify the backend. -/
theorem init_forced_error_lacks_name :
    GpuDetectionBuilder.init
        { force := ["x"], unstable := false, platforms := [platX] }
      = .error (.Unknown "boom")
    ∧ "x".toList.all (fun c => c ∉ (errMsg (.Unknown "boom")).toList) = true :=
  ⟨rfl, by decide⟩

/-- C3 (amended): a force-marked backend whose activation fails makes
`init` fail with that backend's own activation error, propagated verbatim
(the error does not in general name the backend); the same backend not
force-marked is silently skipped, leaving the result exactly as if the
backend were not registered at all. -/
theorem init_forced_vs_unforced :
    (∀ (force : List String) (unstable : Bool) (pre post : List Platform)
        (xp : Platform) (e : GpuDetectionError),
        (∀ p ∈ pre, ∀ fl, ∃ d, p.init fl = .ok d) →
        (∀ p ∈ pre, p.name ≠ xp.name) →
        xp.name ∈ force →
        xp.init { unstable := unstable, force := true } = .error e →
        GpuDetectionBuilder.init ⟨force, unstable, pre ++ xp :: post⟩
          = .error e)
    ∧ (∀ (force : List String) (unstable : Bool) (pre post : List Platform)
        (xp : Platform) (e : GpuDetectionError),
        xp.name ∉ force →
        xp.init { unstable := unstable, force := false } = .error e →
        GpuDetectionBuilder.init ⟨force, unstable, pre ++ xp :: post⟩
          = GpuDetectionBuilder.init ⟨force, unstable, pre ++ post⟩) := by
  constructor
  · intro force unstable pre post xp e hok hne hmem hfail
    have h := initLoop_forced_fail unstable xp post e hfail pre force hok hne hmem
    simp [GpuDetectionBuilder.init, h]
  · intro force unstable pre post xp e hnm hfail
    have h := initLoop_skip unstable xp post e hfail pre force hnm
    simp [GpuDetectionBuilder.init, h]

/-- Witness for the amended C3, at a concrete failing platform `x`: forced,
init fails with the platform's own error; unforced, the platform is absent. -/
theorem init_forced_vs_unforced_witness :
    GpuDetectionBuilder.init
        { force := ["x"], unstable := false, platforms := [platX] }
      = .error (.Unknown "boom")
    ∧ GpuDetectionBuilder.init
        { force := [], unstable := false, platforms := [platX] }
      = GpuDetectionBuilder.init
        { force := [], unstable := false, platforms := [] } :=
  ⟨init_forced_vs_unforced.1 ["x"] false [] [] platX (.Unknown "boom")
      (by intro p hp; simp at hp) (by intro p hp; simp at hp)
      (List.mem_singleton.mpr rfl) rfl,
   init_forced_vs_unforced.2 [] false [] [] platX (.Unknown "boom")
      (by simp) rfl⟩

/-- C4 counterexample: two force-marked registered backends `x` and `y`
both fail activation; `init` returns the first backend's own error — not an
aggregate error, and its display text never mentions `y`. -/
theorem init_two_forced_first_error :
    GpuDetectionBuilder.init
        { force := ["x", "y"], unstable := false, platforms := [platX, platY] }
      = .error (.Unknown "boom")
    ∧ "y".toList.all (fun c => c ∉ (errMsg (.Unknown "boom")).toList) = true :=
  ⟨rfl, by decide⟩

/-- C4 (amended): the single aggregate error reporting the complete set of
missing forced backend names arises exactly for forced names that match no
registered platform (given the registered ones activate); when a forced
registered backend fails to activate, `init` instead returns that first
failing backend's own activation error. -/
theorem init_missing_forced_aggregate :
    (∀ (force : List String) (unstable : Bool) (ps : List Platform),
        (∀ p ∈ ps, ∀ fl, ∃ d, p.init fl = .ok d) →
        force ≠ [] →
        (∀ n ∈ force, ∀ p ∈ ps, p.name ≠ n) →
        GpuDetectionBuilder.init ⟨force, unstable, ps⟩
          = .error (.GpuAccessError
              ("missing forced platforms: " ++ formatForce force)))
    ∧ (∀ (force : List String) (unstable : Bool) (pre post : List Platform)
        (xp : Platform) (e : GpuDetectionError),
        (∀ p ∈ pre, ∀ fl, ∃ d, p.init fl = .ok d) →
        (∀ p ∈ pre, p.name ≠ xp.name) →
        xp.name ∈ force →
        xp.init { unstable := unstable, force := true } = .error e →
        GpuDetectionBuilder.init ⟨force, unstable, pre ++ xp :: post⟩
          = .error e) := by
  constructor
  · intro force unstable ps hok hne hdis
    obtain ⟨ds, hds⟩ := initLoop_all_ok unstable ps force hok
    rw [foldl_erase_of_disjoint ps force hdis] at hds
    have hemp : force.isEmpty = false := by
      cases force with
      | nil => exact absurd rfl hne
      | cons a b => rfl
    simp [GpuDetectionBuilder.init, hds, hemp]
  · intro force unstable pre post xp e hok hpne hmem hfail
    have h := initLoop_forced_fail unstable xp post e hfail pre force hok hpne hmem
    simp [GpuDetectionBuilder.init, h]

/-- Witness for the amended C4: both forced names match no registered
platform, and both are reported together in one aggregate error. -/
theorem init_missing_forced_aggregate_witness :
    GpuDetectionBuilder.init
        { force := ["x", "y"], unstable := false, platforms := [] }
      = .error (.GpuAccessError
          ("missing forced platforms: " ++ formatForce ["x", "y"])) :=
  init_missing_forced_aggregate.1 ["x", "y"] false []
    (by intro p hp; simp at hp) (by simp) (by intro n hn p hp; simp at hp)

/-- C10: a forced name that matches no registered platform makes `init`
fail with the `GpuAccessError` listing that name among the missing forced
platforms, even when every registered backend activates successfully. -/
theorem init_unregistered_forced_name (force : List String) (unstable : Bool)
    (ps : List Platform) (n : String)
    (hok : ∀ p ∈ ps, ∀ fl, ∃ d, p.init fl = .ok d)
    (hmem : n ∈ force)
    (hnr : ∀ p ∈ ps, p.name ≠ n) :
    ∃ remaining, GpuDetectionBuilder.init ⟨force, unstable, ps⟩
        = .error (.GpuAccessError
            ("missing forced platforms: " ++ formatForce remaining))
      ∧ n ∈ remaining := by
  obtain ⟨ds, hds⟩ := initLoop_all_ok unstable ps force hok
  have hmem2 : n ∈ ps.foldl (fun f p => f.erase p.name) force :=
    foldl_erase_mem n ps force hmem hnr
  refine ⟨ps.foldl (fun f p => f.erase p.name) force, ?_, hmem2⟩
  have hemp : (ps.foldl (fun f p => f.erase p.name) force).isEmpty = false := by
    cases hfold : ps.foldl (fun f p => f.erase p.name) force with
    | nil => rw [hfold] at hmem2; simp at hmem2
    | cons a b => rfl
  simp [GpuDetectionBuilder.init, hds, hemp]

/-- Witness for C10 at a concrete unmatched forced name. -/
theorem init_unregistered_forced_name_witness :
    ∃ remaining, GpuDetectionBuilder.init
        { force := ["x"], unstable := false, platforms := [] }
        = .error (.GpuAccessError
            ("missing forced platforms: " ++ formatForce remaining))
      ∧ "x" ∈ remaining :=
  init_unregistered_forced_name ["x"] false [] "x"
    (by intro p hp; simp at hp) (List.mem_singleton.mpr rfl)
    (by intro p hp; simp at hp)
